import Mathlib

/-!
Verification of the interview-practice session core
(`pages/index.jsx` client component and `pages/api/interview.js` handler).

Text is modelled as `List Char` (JavaScript strings); session state as an
explicit record; the external language-model client as an oracle function
`List Char → UpstreamResult`; a thrown JS exception in the response-parsing
step as `Option.none`; machine-level concerns (numbers are JS doubles) are
modelled with `Nat`/`Int`, which is exact on the ranges exercised here.
-/

/-- ASCII approximation of the whitespace class used by the JavaScript
regexp `\s` and by `String.prototype.trim`. -/
def isWS (c : Char) : Bool :=
  c = ' ' || c = '\t' || c = '\n' || c = '\r' || c = '\x0b' || c = '\x0c'

/-- JavaScript `String.prototype.trim`: remove whitespace from both ends. -/
def trim (l : List Char) : List Char :=
  ((l.dropWhile isWS).reverse.dropWhile isWS).reverse

/-- JavaScript `str.split(sep)` for a single-character separator:
every occurrence of the separator ends a segment, and leading, trailing
and adjacent separators produce empty segments. -/
def splitOnChar (sep : Char) : List Char → List (List Char)
  | [] => [[]]
  | c :: rest =>
    if c = sep then [] :: splitOnChar sep rest
    else
      match splitOnChar sep rest with
      | [] => [[c]]
      | s :: ss => (c :: s) :: ss

/-- Worker for `splitNL`. `inRun` records whether the previous character was
a newline (so that further newlines extend the same separator run), and
`acc` is the current segment, reversed. -/
def splitNLGo : Bool → List Char → List Char → List (List Char)
  | _, acc, [] => [acc.reverse]
  | inRun, acc, c :: rest =>
    if c = '\n' then
      if inRun then splitNLGo true acc rest
      else acc.reverse :: splitNLGo true [] rest
    else splitNLGo false (c :: acc) rest

/-- JavaScript `resp.split(/\n+/)`: split on maximal runs of newline
characters. A leading or trailing run still yields an empty segment. -/
def splitNL (l : List Char) : List (List Char) :=
  splitNLGo false [] l

/-- JavaScript `s.replace(/^\d+\.\s*/, '')`: if the segment starts with one
or more digits followed by a period, remove them together with the
whitespace that follows; otherwise return the segment unchanged. -/
def stripOrdinal (s : List Char) : List Char :=
  match s.dropWhile Char.isDigit with
  | '.' :: r => if (s.takeWhile Char.isDigit).isEmpty then s else r.dropWhile isWS
  | _ => s

/-- The question parser of the `generate_questions` branch of the handler:
`resp.split(/\n+/).map(s => s.replace(/^\d+\.\s*/, '').trim()).filter(Boolean)`. -/
def parseQuestions (text : List Char) : List (List Char) :=
  ((splitNL text).map (fun s => trim (stripOrdinal s))).filter (fun s => !s.isEmpty)

/-- Decimal value of a digit string, as computed by `parseInt(run, 10)` on a
run of ASCII digits. -/
def natOfDigits (l : List Char) : Nat :=
  l.foldl (fun n c => 10 * n + (c.toNat - 48)) 0

/-- Score extraction of the `grade_answer` branch:
`lines[0].match(/\d+/) ? parseInt(lines[0].match(/\d+/)[0], 10) : 0` —
the first run of digits anywhere in the line, or 0 when there is none. -/
def scoreOfFirstLine (l : List Char) : Nat :=
  let run := (l.dropWhile (fun c => !c.isDigit)).takeWhile Char.isDigit
  if run.isEmpty then 0 else natOfDigits run

/-- The line preprocessing of the `grade_answer` branch:
`resp.split('\n').map(l => l.trim()).filter(Boolean)`. -/
def gradeLines (text : List Char) : List (List Char) :=
  ((splitOnChar '\n' text).map trim).filter (fun l => !l.isEmpty)

/-- Structured result of grading: a numeric score and feedback text. -/
structure GradeResult where
  score : Nat
  feedback : List Char
deriving DecidableEq

/-- The grade parser of the `grade_answer` branch. The source reads
`lines[0]` unconditionally; when the filtered line list is empty this is
`undefined` and `lines[0].match` throws a `TypeError`, modelled as `none`. -/
def parseGrade (text : List Char) : Option GradeResult :=
  match gradeLines text with
  | [] => none
  | l0 :: rest => some ⟨scoreOfFirstLine l0, List.intercalate [' '] rest⟩

/-- Outcome of `openaiCompletion(prompt)`: either the completion text, or a
thrown error (missing `OPENAI_API_KEY`, network failure, non-success status,
or a response without `choices[0]`), carrying the error message. -/
inductive UpstreamResult where
  | ok (text : List Char)
  | err (msg : List Char)

/-- The destructured request body
`const { action, role, company, program, question, answer } = req.body || {}`;
a field absent from the JSON body is `undefined`, modelled as `none`. -/
structure ReqBody where
  action : Option (List Char) := none
  role : Option (List Char) := none
  company : Option (List Char) := none
  program : Option (List Char) := none
  question : Option (List Char) := none
  answer : Option (List Char) := none
deriving DecidableEq

/-- The parts of the incoming request the handler reads. -/
structure ApiRequest where
  method : List Char
  body : Option ReqBody
deriving DecidableEq

/-- JSON body of a handler response; fields the handler did not set are
`undefined` on the client, modelled as `none`. -/
structure ApiBody where
  questions : Option (List (List Char)) := none
  score : Option Nat := none
  feedback : Option (List Char) := none
  error : Option (List Char) := none
deriving DecidableEq

/-- A handler run: HTTP status, JSON body, and the list of prompts passed to
`openaiCompletion`, recording every outbound call to the model client. -/
structure ApiResult where
  status : Nat
  body : ApiBody
  calls : List (List Char)
deriving DecidableEq

/-- Template interpolation of a possibly-undefined value. -/
def jsToStr : Option (List Char) → List Char
  | none => "undefined".data
  | some s => s

/-- JavaScript `x || d` for a string `x`: `undefined` and the empty string
are falsy. -/
def orDefault (o : Option (List Char)) (d : List Char) : List Char :=
  match o with
  | none => d
  | some s => if s.isEmpty then d else s

/-- The `promptBase` constant of the handler. -/
def promptBase : List Char :=
  "You are an expert interviewer and interviewer coach. Be concise and use numbered lists where appropriate.".data

/-- The question-generation prompt built by the `generate_questions` branch. -/
def buildQuestionPrompt (role company program : Option (List Char)) : List Char :=
  promptBase ++ "\n\nGenerate 8 interview questions tailored to the role: ".data ++
    jsToStr role ++ ". Company: ".data ++ orDefault company "generic".data ++
    ". Program: ".data ++ orDefault program "general".data ++
    ". Include a mix of behavioral, technical and role-specific questions. For each question include a short tag in parentheses like (behavioral) or (technical).".data

/-- The grading prompt built by the `grade_answer` branch. -/
def buildGradingPrompt (role company program question answer : Option (List Char)) : List Char :=
  promptBase ++ "\n\nYou are grading an interview answer. Role: ".data ++
    jsToStr role ++ ". Company: ".data ++ orDefault company "generic".data ++
    ". Program: ".data ++ orDefault program "general".data ++
    ".\n\nQuestion: ".data ++ jsToStr question ++
    "\n\nCandidate answer: ".data ++ jsToStr answer ++
    "\n\nProvide:\n1) A numeric score from 1-10 (only the number on the first line).\n2) A short paragraph (1-3 sentences) explaining the score and 3 bullet point suggestions to improve the answer.\nKeep the response JSON-stringifiable.".data

/-- Message of the `TypeError` thrown by `lines[0].match` when the filtered
line list is empty; caught by the surrounding try, it becomes a 500 body. -/
def typeErrorMsg : List Char :=
  "TypeError: cannot read match of undefined".data

/-- The serverless handler of `pages/api/interview.js`, with
`openaiCompletion` abstracted as `oracle`. Any error thrown inside the
`try` block (an upstream failure, or the `TypeError` of the grade parser on
empty text) is caught and returned as a 500 response with the message. -/
def handler (req : ApiRequest) (oracle : List Char → UpstreamResult) : ApiResult :=
  if req.method = "POST".data then
    let b := req.body.getD {}
    if b.action = some "generate_questions".data then
      let prompt := buildQuestionPrompt b.role b.company b.program
      match oracle prompt with
      | .ok text => ⟨200, { questions := some (parseQuestions text) }, [prompt]⟩
      | .err m => ⟨500, { error := some m }, [prompt]⟩
    else if b.action = some "grade_answer".data then
      let prompt := buildGradingPrompt b.role b.company b.program b.question b.answer
      match oracle prompt with
      | .ok text =>
        match parseGrade text with
        | some g => ⟨200, { score := some g.score, feedback := some g.feedback }, [prompt]⟩
        | none => ⟨500, { error := some typeErrorMsg }, [prompt]⟩
      | .err m => ⟨500, { error := some m }, [prompt]⟩
    else ⟨400, { error := some "invalid action".data }, []⟩
  else ⟨405, {}, []⟩

/-- One entry of the session history, as assembled by the client:
`{ question, answer, score: data.score, feedback: data.feedback }`.
On an error response `data.score` and `data.feedback` are `undefined`. -/
structure HistoryEntry where
  question : List Char
  answer : List Char
  score : Option Nat
  feedback : Option (List Char)
deriving DecidableEq

/-- The `useState` hooks of the `Home` component. `currentIndex` is an `Int`
because the JavaScript expression `questions.length - 1` can be `-1`. -/
structure ClientState where
  role : List Char
  company : List Char
  program : List Char
  questions : List (List Char)
  currentIndex : Int
  answer : List Char
  history : List HistoryEntry
  loading : Bool
deriving DecidableEq

/-- The initial hook values of the `Home` component. -/
def initialState : ClientState :=
  ⟨"Software Engineer".data, "Acme Corp".data, "New Grad".data, [], 0, [], [], false⟩

/-- What the client observes from `await fetch(...)` then `await res.json()`:
either a rejected promise (network failure — the exception propagates and no
later statement of the async function runs), or the parsed JSON body. -/
inductive FetchOutcome where
  | networkError
  | response (data : ApiBody)

/-- JavaScript array indexing `l[i]`: `undefined` when out of bounds or
negative. -/
def jsIndex {α : Type} (l : List α) (i : Int) : Option α :=
  if 0 ≤ i then l.get? i.toNat else none

/-- The client `fetchQuestions` handler. On a response it runs
`setQuestions(data.questions || []); setCurrentIndex(0); setHistory([]);
setAnswer(''); setLoading(false)` — whatever the status was. On a network
failure only the initial `setLoading(true)` has happened. -/
def fetchQuestions (s : ClientState) : FetchOutcome → ClientState
  | .networkError => { s with loading := true }
  | .response data =>
    { s with
      questions := data.questions.getD []
      currentIndex := 0
      history := []
      answer := []
      loading := false }

/-- The client `gradeAnswer` handler. It returns at once when
`questions[currentIndex]` is falsy (`undefined` or the empty string);
otherwise it posts the answer and, on any response, prepends a history
entry from `data` and advances `currentIndex` clamped to the last index. -/
def gradeAnswer (s : ClientState) (o : FetchOutcome) : ClientState :=
  match jsIndex s.questions s.currentIndex with
  | none => s
  | some q =>
    if q.isEmpty then s
    else
      match o with
      | .networkError => { s with loading := true }
      | .response data =>
        { s with
          history := ⟨q, s.answer, data.score, data.feedback⟩ :: s.history
          answer := []
          currentIndex := min (s.currentIndex + 1) ((s.questions.length : Int) - 1)
          loading := false }

/-- Whether the guard `if (!questions[currentIndex]) return` lets
`gradeAnswer` proceed to the outbound request. -/
def gradeGuardPasses (s : ClientState) : Bool :=
  match jsIndex s.questions s.currentIndex with
  | none => false
  | some q => !q.isEmpty

/-- Whether the async `gradeAnswer` call rejects (throws): only when the
guard passed and the fetch itself failed. -/
def gradeAnswerThrows (s : ClientState) (o : FetchOutcome) : Bool :=
  gradeGuardPasses s &&
    match o with
    | .networkError => true
    | .response _ => false

/-- The Reset button:
`onClick={() => { setQuestions([]); setHistory([]); setAnswer('') }}`.
Note that it does not touch `currentIndex`. -/
def reset (s : ClientState) : ClientState :=
  { s with questions := [], history := [], answer := [] }

/-- The request posted by `fetchQuestions`. -/
def fetchReq (s : ClientState) : ApiRequest :=
  ⟨"POST".data,
    some { action := some "generate_questions".data, role := some s.role,
           company := some s.company, program := some s.program }⟩

/-- The request posted by `gradeAnswer`; `question` is
`questions[currentIndex]` (omitted from the JSON when `undefined`). -/
def gradeReq (s : ClientState) : ApiRequest :=
  ⟨"POST".data,
    some { action := some "grade_answer".data, role := some s.role,
           company := some s.company, program := some s.program,
           question := jsIndex s.questions s.currentIndex,
           answer := some s.answer }⟩

/-- Full round trip of `fetchQuestions` through the API handler. -/
def fetchRoundTrip (s : ClientState) (oracle : List Char → UpstreamResult) : ClientState :=
  fetchQuestions s (.response (handler (fetchReq s) oracle).body)

/-- Full round trip of `gradeAnswer` through the API handler. -/
def gradeRoundTrip (s : ClientState) (oracle : List Char → UpstreamResult) : ClientState :=
  gradeAnswer s (.response (handler (gradeReq s) oracle).body)

/-- One user-visible operation of the session UI. The Submit, Prev and Next
buttons exist only while `questions` is non-empty (the page renders the
question panel only then); Fetch Questions and Reset are always available.
Each fetch-based operation either completes a round trip through the handler
(for an arbitrary upstream oracle) or fails at the network level. -/
inductive Step : ClientState → ClientState → Prop where
  | fetch (s : ClientState) (oracle : List Char → UpstreamResult) :
      Step s (fetchRoundTrip s oracle)
  | fetchFail (s : ClientState) : Step s (fetchQuestions s .networkError)
  | grade (s : ClientState) (oracle : List Char → UpstreamResult)
      (h : s.questions ≠ []) : Step s (gradeRoundTrip s oracle)
  | gradeFail (s : ClientState) (h : s.questions ≠ []) :
      Step s (gradeAnswer s .networkError)
  | prev (s : ClientState) (h : s.questions ≠ []) :
      Step s { s with currentIndex := max 0 (s.currentIndex - 1) }
  | next (s : ClientState) (h : s.questions ≠ []) :
      Step s { s with currentIndex := min ((s.questions.length : Int) - 1) (s.currentIndex + 1) }
  | resetBtn (s : ClientState) : Step s (reset s)

/-- States reachable from the initial hook values by the five session
operations. -/
inductive Reachable : ClientState → Prop where
  | init : Reachable initialState
  | step {s s' : ClientState} (h : Reachable s) (hs : Step s s') : Reachable s'

/-- A well-formed numbered line, given as its three parts: the ordinal
digits, the whitespace after the period, and the question text. -/
def mkLine (it : List Char × List Char × List Char) : List Char :=
  it.1 ++ '.' :: (it.2.1 ++ it.2.2)

/-- Well-formedness of the parts of a numbered line: at least one digit, at
least one whitespace character (none of it a newline, since a line holds no
newline), and question text that contains no newline and does not trim to
nothing. -/
def WFItem (it : List Char × List Char × List Char) : Prop :=
  it.1 ≠ [] ∧ (∀ c ∈ it.1, c.isDigit = true) ∧
  it.2.1 ≠ [] ∧ (∀ c ∈ it.2.1, isWS c = true ∧ c ≠ '\n') ∧
  '\n' ∉ it.2.2 ∧ (trim it.2.2).isEmpty = false

instance (it : List Char × List Char × List Char) : Decidable (WFItem it) := by
  unfold WFItem; infer_instance

/-- Join lines with single newline separators (the shape of a numbered
list as one block of model text). -/
def joinNL : List (List Char) → List Char
  | [] => []
  | [l] => l
  | l :: l₂ :: ls => l ++ '\n' :: joinNL (l₂ :: ls)

/-- A model-client oracle that always fails, as when the upstream service
is unreachable or returns a malformed envelope. -/
def errOracle : List Char → UpstreamResult :=
  fun _ => .err "OpenAI error".data

/-- A concrete mid-session client state: two questions fetched, first one
selected, an answer typed, nothing graded yet. -/
def sMidSession : ClientState :=
  { role := "SWE".data, company := "Acme".data, program := "NG".data,
    questions := ["Q1".data, "Q2".data], currentIndex := 0,
    answer := "my answer".data, history := [], loading := false }

/-- A concrete client state with one fetched question and one graded
answer already in the history. -/
def sWithHistory : ClientState :=
  { role := "SWE".data, company := "Acme".data, program := "NG".data,
    questions := ["Q1".data], currentIndex := 0, answer := [],
    history := [⟨"Q1".data, "a1".data, some 7, some "good".data⟩],
    loading := false }

/-- A concrete `grade_answer` request, used to drive the handler against a
model that returns empty text. -/
def gradeReqC2 : ApiRequest :=
  ⟨"POST".data,
    some { action := some "grade_answer".data, role := some "SWE".data,
           question := some "Q1".data, answer := some "A".data }⟩

/-- The client state reached by fetching three questions, pressing Next
twice and then Reset: `questions` is empty again but `currentIndex` is
still 2. -/
def sAfterReset : ClientState :=
  { role := "Software Engineer".data, company := "Acme Corp".data,
    program := "New Grad".data, questions := [], currentIndex := 2,
    answer := [], history := [], loading := false }

/-- An oracle returning a three-question numbered list. -/
def threeQOracle : List Char → UpstreamResult :=
  fun _ => .ok "1. a\n2. b\n3. c".data

/-- A `generate_questions` request whose role is present but empty, the
company and program left free. -/
def emptyRoleReq (company program : Option (List Char)) : ApiRequest :=
  ⟨"POST".data,
    some { action := some "generate_questions".data, role := some [],
           company := company, program := program }⟩

lemma dropWhile_append_all (p : Char → Bool) (xs ys : List Char)
    (h : ∀ c ∈ xs, p c = true) : (xs ++ ys).dropWhile p = ys.dropWhile p := by
  induction xs with
  | nil => rfl
  | cons x xs ih =>
    have hx : p x = true := h x (List.mem_cons_self x xs)
    simp only [List.cons_append, List.dropWhile_cons, hx, if_true]
    exact ih (fun c hc => h c (List.mem_cons_of_mem x hc))

lemma takeWhile_append_stop (p : Char → Bool) (xs : List Char) (y : Char) (ys : List Char)
    (h : ∀ c ∈ xs, p c = true) (hy : p y = false) : (xs ++ y :: ys).takeWhile p = xs := by
  induction xs with
  | nil => simp [List.takeWhile_cons, hy]
  | cons x xs ih =>
    have hx : p x = true := h x (List.mem_cons_self x xs)
    simp only [List.cons_append, List.takeWhile_cons, hx, if_true]
    rw [ih (fun c hc => h c (List.mem_cons_of_mem x hc))]

lemma dropWhile_idem (p : Char → Bool) (l : List Char) :
    (l.dropWhile p).dropWhile p = l.dropWhile p := by
  induction l with
  | nil => rfl
  | cons a l ih =>
    by_cases h : p a = true
    · simp only [List.dropWhile_cons, h, if_true]
      exact ih
    · simp [List.dropWhile_cons, h]

lemma stripOrdinal_parts (ds ws t : List Char) (hds : ds ≠ [])
    (hd : ∀ c ∈ ds, c.isDigit = true) (hws : ∀ c ∈ ws, isWS c = true) :
    stripOrdinal (ds ++ '.' :: (ws ++ t)) = t.dropWhile isWS := by
  have h1 : (ds ++ '.' :: (ws ++ t)).dropWhile Char.isDigit = '.' :: (ws ++ t) := by
    rw [dropWhile_append_all Char.isDigit ds _ hd]
    rfl
  have h2 : (ds ++ '.' :: (ws ++ t)).takeWhile Char.isDigit = ds :=
    takeWhile_append_stop Char.isDigit ds '.' (ws ++ t) hd (by decide)
  have h3 : ds.isEmpty = false := by
    cases ds with
    | nil => exact absurd rfl hds
    | cons a l => rfl
  unfold stripOrdinal
  rw [h1, h2, h3]
  simp only [Bool.false_eq_true, if_false]
  exact dropWhile_append_all isWS ws t hws

lemma trim_dropWhile (t : List Char) : trim (t.dropWhile isWS) = trim t := by
  unfold trim
  rw [dropWhile_idem]

lemma splitNLGo_no_nl (l : List Char) (h : '\n' ∉ l) (acc : List Char) :
    splitNLGo false acc l = [acc.reverse ++ l] := by
  induction l generalizing acc with
  | nil => simp [splitNLGo]
  | cons c l ih =>
    have hc : c ≠ '\n' := fun hcc => h (hcc ▸ List.mem_cons_self c l)
    rw [show splitNLGo false acc (c :: l) = splitNLGo false (c :: acc) l by
      simp [splitNLGo, hc]]
    rw [ih (fun hm => h (List.mem_cons_of_mem c hm)) (c :: acc)]
    simp

lemma splitNLGo_append (l : List Char) (h : '\n' ∉ l) (acc r : List Char) :
    splitNLGo false acc (l ++ '\n' :: r) = (acc.reverse ++ l) :: splitNLGo true [] r := by
  induction l generalizing acc with
  | nil => simp [splitNLGo]
  | cons c l ih =>
    have hc : c ≠ '\n' := fun hcc => h (hcc ▸ List.mem_cons_self c l)
    rw [show splitNLGo false acc ((c :: l) ++ '\n' :: r) = splitNLGo false (c :: acc) (l ++ '\n' :: r) by
      simp [splitNLGo, hc]]
    rw [ih (fun hm => h (List.mem_cons_of_mem c hm)) (c :: acc)]
    simp

lemma splitNLGo_true_cons (c : Char) (hc : c ≠ '\n') (r : List Char) :
    splitNLGo true [] (c :: r) = splitNLGo false [] (c :: r) := by
  simp [splitNLGo, hc]

lemma joinNL_cons_head (c : Char) (l : List Char) (ls : List (List Char)) :
    ∃ r, joinNL ((c :: l) :: ls) = c :: r := by
  cases ls with
  | nil => exact ⟨l, rfl⟩
  | cons b ls => exact ⟨l ++ '\n' :: joinNL (b :: ls), rfl⟩

lemma splitNL_joinNL (lines : List (List Char)) (hne : lines ≠ [])
    (h : ∀ l ∈ lines, l ≠ [] ∧ '\n' ∉ l) : splitNL (joinNL lines) = lines := by
  induction lines with
  | nil => exact absurd rfl hne
  | cons l ls ih =>
    cases ls with
    | nil =>
      show splitNLGo false [] (joinNL [l]) = [l]
      rw [show joinNL [l] = l from rfl]
      rw [splitNLGo_no_nl l (h l (List.mem_cons_self l [])).2 []]
      simp
    | cons l₂ ls₂ =>
      have h1 := h l (List.mem_cons_self l (l₂ :: ls₂))
      have h2 := h l₂ (List.mem_cons_of_mem l (List.mem_cons_self l₂ ls₂))
      show splitNLGo false [] (joinNL (l :: l₂ :: ls₂)) = l :: l₂ :: ls₂
      rw [show joinNL (l :: l₂ :: ls₂) = l ++ '\n' :: joinNL (l₂ :: ls₂) from rfl]
      rw [splitNLGo_append l h1.2 [] (joinNL (l₂ :: ls₂))]
      obtain ⟨c, l₂', rfl⟩ : ∃ c l₂', l₂ = c :: l₂' := by
        cases l₂ with
        | nil => exact absurd rfl h2.1
        | cons c l₂' => exact ⟨c, l₂', rfl⟩
      obtain ⟨r, hr⟩ := joinNL_cons_head c l₂' ls₂
      have hc : c ≠ '\n' := fun hcc => h2.2 (hcc ▸ List.mem_cons_self c l₂')
      rw [hr, splitNLGo_true_cons c hc r, ← hr]
      have ihr := ih (by simp) (fun x hx => h x (List.mem_cons_of_mem l hx))
      rw [show splitNLGo false [] (joinNL ((c :: l₂') :: ls₂)) = splitNL (joinNL ((c :: l₂') :: ls₂)) from rfl]
      rw [ihr]
      simp

lemma trim_stripOrdinal_mkLine (it : List Char × List Char × List Char) (h : WFItem it) :
    trim (stripOrdinal (mkLine it)) = trim it.2.2 := by
  obtain ⟨h1, h2, _h3, h4, _h5, _h6⟩ := h
  show trim (stripOrdinal (it.1 ++ '.' :: (it.2.1 ++ it.2.2))) = trim it.2.2
  rw [stripOrdinal_parts it.1 it.2.1 it.2.2 h1 h2 (fun c hc => (h4 c hc).1)]
  exact trim_dropWhile it.2.2

lemma parseQuestions_filter_map (items : List (List Char × List Char × List Char))
    (h : ∀ it ∈ items, WFItem it) :
    ((items.map mkLine).map (fun s => trim (stripOrdinal s))).filter (fun s => !s.isEmpty) =
      items.map (fun it => trim it.2.2) := by
  induction items with
  | nil => rfl
  | cons a items ih =>
    have ha := h a (List.mem_cons_self a items)
    have hkeep : (trim a.2.2).isEmpty = false := ha.2.2.2.2.2
    simp only [List.map_cons, List.filter_cons, trim_stripOrdinal_mkLine a ha, hkeep]
    rw [ih (fun it hit => h it (List.mem_cons_of_mem a hit))]
    simp

lemma mkLine_ne_nil_no_nl (it : List Char × List Char × List Char) (h : WFItem it) :
    mkLine it ≠ [] ∧ '\n' ∉ mkLine it := by
  obtain ⟨h1, h2, _h3, h4, h5, _h6⟩ := h
  constructor
  · cases hds : it.1 with
    | nil => exact absurd hds h1
    | cons c l => simp [mkLine, hds]
  · intro hmem
    unfold mkLine at hmem
    rcases List.mem_append.mp hmem with hm | hm
    · have := h2 '\n' hm
      simp at this
    · rcases List.mem_cons.mp hm with hm' | hm'
      · exact absurd hm'.symm (by decide)
      · rcases List.mem_append.mp hm' with hm'' | hm''
        · exact (h4 '\n' hm'').2 rfl
        · exact h5 hm''

lemma inv_fetchQuestions (s : ClientState) (o : FetchOutcome)
    (h : 0 ≤ s.currentIndex ∧ (s.questions ≠ [] → s.currentIndex < (s.questions.length : Int))) :
    0 ≤ (fetchQuestions s o).currentIndex ∧
      ((fetchQuestions s o).questions ≠ [] →
        (fetchQuestions s o).currentIndex < ((fetchQuestions s o).questions.length : Int)) := by
  cases o with
  | networkError => exact h
  | response data =>
    simp only [fetchQuestions]
    refine ⟨le_refl 0, fun hne => ?_⟩
    exact_mod_cast List.length_pos.mpr hne

lemma inv_gradeAnswer (s : ClientState) (o : FetchOutcome)
    (h : 0 ≤ s.currentIndex ∧ (s.questions ≠ [] → s.currentIndex < (s.questions.length : Int))) :
    0 ≤ (gradeAnswer s o).currentIndex ∧
      ((gradeAnswer s o).questions ≠ [] →
        (gradeAnswer s o).currentIndex < ((gradeAnswer s o).questions.length : Int)) := by
  unfold gradeAnswer
  cases hj : jsIndex s.questions s.currentIndex with
  | none => exact h
  | some q =>
    dsimp only
    by_cases hq : q.isEmpty = true
    · rw [if_pos hq]
      exact h
    · rw [if_neg hq]
      cases o with
      | networkError => exact h
      | response data =>
        have h0 : 0 ≤ s.currentIndex := by
          by_contra hneg
          simp [jsIndex, hneg] at hj
        have hlt : s.currentIndex.toNat < s.questions.length := by
          have hsome : s.questions.get? s.currentIndex.toNat = some q := by
            simpa [jsIndex, h0] using hj
          exact (List.get?_eq_some.mp hsome).1
        have hlen : 1 ≤ (s.questions.length : Int) := by omega
        simp only []
        refine ⟨le_min (by omega) (by omega), fun _ => ?_⟩
        exact (min_le_right _ _).trans_lt (by omega)

/-- C1 (refuting evaluation): when the model call of the `grade_answer`
round trip fails upstream, the handler responds 500 with an error body, yet
the client still prepends a history entry (with `undefined` score and
feedback) and advances `currentIndex` — `history` and `currentIndex` do not
keep their previous values, contrary to the claim. -/
theorem grade_upstream_error_mutates_state :
    (handler (gradeReq sMidSession) errOracle).status = 500 ∧
    (gradeRoundTrip sMidSession errOracle).history =
      [⟨"Q1".data, "my answer".data, none, none⟩] ∧
    (gradeRoundTrip sMidSession errOracle).currentIndex = 1 ∧
    sMidSession.history = [] ∧ sMidSession.currentIndex = 0 := by
  decide

/-- C2 (refuting evaluation): on empty or whitespace-only model text the
grade parser does not return score 0 with empty feedback; the `lines[0]`
access throws (modelled as `none`) and the whole request fails with 500. -/
theorem parseGrade_empty_throws :
    parseGrade [] = none ∧
    parseGrade " \t\n  ".data = none ∧
    (handler gradeReqC2 (fun _ => .ok [])).status = 500 ∧
    (handler gradeReqC2 (fun _ => .ok [])).body.error = some typeErrorMsg := by
  decide

/-- C3: a well-formed numbered list of N lines (digits, a period,
whitespace, then question text), joined with newlines, parses to exactly N
entries, each its question text with surrounding whitespace trimmed, in the
original order. -/
theorem parseQuestions_wellFormed (items : List (List Char × List Char × List Char))
    (h : ∀ it ∈ items, WFItem it) :
    parseQuestions (joinNL (items.map mkLine)) = items.map (fun it => trim it.2.2) ∧
    (parseQuestions (joinNL (items.map mkLine))).length = items.length := by
  have hmain : parseQuestions (joinNL (items.map mkLine)) = items.map (fun it => trim it.2.2) := by
    cases items with
    | nil => decide
    | cons a its =>
      have hlines : ∀ l ∈ (a :: its).map mkLine, l ≠ [] ∧ '\n' ∉ l := by
        intro l hl
        obtain ⟨it, hit, rfl⟩ := List.mem_map.mp hl
        exact mkLine_ne_nil_no_nl it (h it hit)
      unfold parseQuestions
      rw [splitNL_joinNL ((a :: its).map mkLine) (by simp) hlines]
      exact parseQuestions_filter_map (a :: its) h
  refine ⟨hmain, ?_⟩
  rw [hmain, List.length_map]

/-- C3 witness: the two-line numbered list of the specification example. -/
theorem parseQuestions_wellFormed_witness :
    parseQuestions (joinNL (List.map mkLine
      [(['1'], [' '], "Tell me about yourself".data), (['2'], [' '], "Why this role?".data)])) =
      List.map (fun it => trim it.2.2)
        [(['1'], [' '], "Tell me about yourself".data), (['2'], [' '], "Why this role?".data)] :=
  (parseQuestions_wellFormed
    [(['1'], [' '], "Tell me about yourself".data), (['2'], [' '], "Why this role?".data)]
    (by decide)).1

/-- C4: on text with at least one non-empty trimmed line, the grade parser
returns the score extracted from the first run of digits of the first such
line (0 when it has no digits) and the remaining lines joined with a single
space as feedback. -/
theorem parseGrade_nonempty_lines (text : List Char) (h : gradeLines text ≠ []) :
    parseGrade text =
      some ⟨scoreOfFirstLine (gradeLines text).headI,
            List.intercalate [' '] (gradeLines text).tail⟩ := by
  unfold parseGrade
  cases hg : gradeLines text with
  | nil => exact absurd hg h
  | cons l0 rest => simp

/-- C4 witness: the specification example input. -/
theorem parseGrade_nonempty_lines_witness :
    gradeLines "8\nSolid answer with clear structure.".data ≠ [] ∧
    parseGrade "8\nSolid answer with clear structure.".data =
      some ⟨scoreOfFirstLine (gradeLines "8\nSolid answer with clear structure.".data).headI,
            List.intercalate [' '] (gradeLines "8\nSolid answer with clear structure.".data).tail⟩ :=
  ⟨by decide, parseGrade_nonempty_lines "8\nSolid answer with clear structure.".data (by decide)⟩

/-- C5 counterexample: a `generate_questions` request with an empty role
does not fail — with a succeeding oracle the handler returns 200, no error,
and has made an outbound model call, so no validation failure happens
before the call. -/
theorem emptyRole_no_validation_cex :
    (handler (emptyRoleReq none none) (fun _ => .ok "1. Q".data)).status = 200 ∧
    (handler (emptyRoleReq none none) (fun _ => .ok "1. Q".data)).calls ≠ [] ∧
    (handler (emptyRoleReq none none) (fun _ => .ok "1. Q".data)).body.error = none := by
  decide

/-- C5 amended: with an empty role the `generate_questions` stage performs
no validation — it builds the prompt with the empty role interpolated,
makes exactly one outbound model call, and its status is decided solely by
the upstream result. -/
theorem emptyRole_calls_model (company program : Option (List Char))
    (oracle : List Char → UpstreamResult) :
    (handler (emptyRoleReq company program) oracle).calls =
      [buildQuestionPrompt (some []) company program] ∧
    (handler (emptyRoleReq company program) oracle).status =
      (match oracle (buildQuestionPrompt (some []) company program) with
       | .ok _ => 200 | .err _ => 500) := by
  unfold handler emptyRoleReq
  simp only [Option.getD_some]
  cases h : oracle (buildQuestionPrompt (some []) company program) <;>
    simp [h]

/-- C6 (refuting evaluation): when the model call of the question-fetch
round trip fails upstream, the handler does respond 500 with the error, but
the client then replaces the existing non-empty `questions` and `history`
with empty ones instead of leaving the state unchanged. -/
theorem fetch_upstream_error_clears_state :
    (handler (fetchReq sWithHistory) errOracle).status = 500 ∧
    (handler (fetchReq sWithHistory) errOracle).body.error = some "OpenAI error".data ∧
    (fetchRoundTrip sWithHistory errOracle).questions = [] ∧
    (fetchRoundTrip sWithHistory errOracle).history = [] ∧
    sWithHistory.questions ≠ [] ∧ sWithHistory.history ≠ [] := by
  decide

/-- C7 counterexample: submitting with no questions is a silent no-op — the
call does not throw on either possible fetch outcome, the guard stops it
before any request, and the state is returned unchanged; no `StateError`
(or any failure) occurs. -/
theorem submitAnswer_empty_no_error_cex :
    gradeAnswerThrows initialState .networkError = false ∧
    gradeAnswer initialState .networkError = initialState ∧
    gradeAnswerThrows initialState (.response {}) = false ∧
    gradeAnswer initialState (.response {}) = initialState ∧
    gradeGuardPasses initialState = false := by
  decide

/-- C7 amended: when no question is selected (questions empty or index out
of bounds), `gradeAnswer` returns without error, makes no outbound call,
and leaves the whole state — in particular `history` and `currentIndex` —
unchanged. -/
theorem submitAnswer_empty_noop (s : ClientState) (o : FetchOutcome)
    (h : s.questions = [] ∨ jsIndex s.questions s.currentIndex = none) :
    gradeGuardPasses s = false ∧ gradeAnswer s o = s ∧ gradeAnswerThrows s o = false := by
  have hj : jsIndex s.questions s.currentIndex = none := by
    rcases h with h | h
    · simp [jsIndex, h]
    · exact h
  refine ⟨?_, ?_, ?_⟩
  · simp [gradeGuardPasses, hj]
  · simp [gradeAnswer, hj]
  · simp [gradeAnswerThrows, gradeGuardPasses, hj]

/-- C7 witness: the initial state has no questions. -/
theorem submitAnswer_empty_noop_witness :
    gradeGuardPasses initialState = false ∧
    gradeAnswer initialState .networkError = initialState ∧
    gradeAnswerThrows initialState .networkError = false :=
  submitAnswer_empty_noop initialState .networkError (Or.inl rfl)

/-- C8 counterexample: fetching three questions, pressing Next twice and
then Reset reaches a state with `questions = []` and `currentIndex = 2`,
violating the claimed invariant `currentIndex < max 1 questions.length`
(Reset does not re-zero the index). -/
theorem invariant_claim_cex :
    Reachable sAfterReset ∧
    ¬ (0 ≤ sAfterReset.currentIndex ∧
        sAfterReset.currentIndex < max 1 (sAfterReset.questions.length : Int)) := by
  constructor
  · have h0 : Reachable initialState := Reachable.init
    have h1 := Reachable.step h0 (Step.fetch initialState threeQOracle)
    have h2 := Reachable.step h1 (Step.next _ (by decide))
    have h3 := Reachable.step h2 (Step.next _ (by decide))
    have h4 := Reachable.step h3 (Step.resetBtn _)
    exact h4
  · decide

/-- C8 amended: every reachable state satisfies `0 ≤ currentIndex`, and
whenever `questions` is non-empty also `currentIndex < questions.length`
(so the index saturates at the last question); after Reset, with empty
`questions`, a stale positive index may remain. -/
theorem reachable_invariant (s : ClientState) (h : Reachable s) :
    0 ≤ s.currentIndex ∧ (s.questions ≠ [] → s.currentIndex < (s.questions.length : Int)) := by
  induction h with
  | init => exact ⟨le_refl 0, fun hne => absurd rfl hne⟩
  | @step s s' hR hS ih =>
    cases hS with
    | fetch oracle => exact inv_fetchQuestions s _ ih
    | fetchFail => exact inv_fetchQuestions s .networkError ih
    | grade oracle hq => exact inv_gradeAnswer s _ ih
    | gradeFail hq => exact inv_gradeAnswer s .networkError ih
    | prev hq =>
      have hlen : 1 ≤ (s.questions.length : Int) := by
        have := List.length_pos.mpr hq
        omega
      have hi := ih.2 hq
      dsimp only
      refine ⟨le_max_left 0 _, fun _ => ?_⟩
      rcases max_choice 0 (s.currentIndex - 1) with hmax | hmax <;> rw [hmax] <;> omega
    | next hq =>
      have hlen : 1 ≤ (s.questions.length : Int) := by
        have := List.length_pos.mpr hq
        omega
      have h0 := ih.1
      dsimp only
      refine ⟨le_min ?_ ?_, fun _ => (min_le_left _ _).trans_lt (by omega)⟩ <;> omega
    | resetBtn =>
      exact ⟨ih.1, fun hne => absurd rfl hne⟩

/-- C8 witness: the initial state is reachable and satisfies the
invariant. -/
theorem reachable_invariant_witness :
    0 ≤ initialState.currentIndex ∧
      (initialState.questions ≠ [] → initialState.currentIndex < (initialState.questions.length : Int)) :=
  reachable_invariant initialState Reachable.init

/-- C9 counterexample: Reset from `currentIndex = 1` leaves the index at 1,
not 0 — the Reset handler calls `setQuestions([])`, `setHistory([])` and
`setAnswer('')` but never `setCurrentIndex(0)`. -/
theorem reset_keeps_currentIndex_cex :
    (reset { role := [], company := [], program := [], questions := ["q".data],
             currentIndex := 1, answer := [], history := [], loading := false }).currentIndex = 1 ∧
    (reset { role := [], company := [], program := [], questions := ["q".data],
             currentIndex := 1, answer := [], history := [], loading := false }).currentIndex ≠ 0 := by
  decide

/-- C9 amended: `reset` clears `questions`, `history` and the answer draft,
leaves the parameters (role, company, program) unchanged, and leaves
`currentIndex` at its previous value rather than resetting it to 0. -/
theorem reset_effect (s : ClientState) :
    (reset s).questions = [] ∧ (reset s).history = [] ∧ (reset s).answer = [] ∧
    (reset s).currentIndex = s.currentIndex ∧ (reset s).role = s.role ∧
    (reset s).company = s.company ∧ (reset s).program = s.program :=
  ⟨rfl, rfl, rfl, rfl, rfl, rfl, rfl⟩

/-- C10: a POST request whose action is neither `generate_questions` nor
`grade_answer` gets a 400 response with body `error = invalid action` and
causes no outbound call to the model client. -/
theorem invalid_action_400 (req : ApiRequest) (oracle : List Char → UpstreamResult)
    (hm : req.method = "POST".data)
    (h1 : (req.body.getD {}).action ≠ some "generate_questions".data)
    (h2 : (req.body.getD {}).action ≠ some "grade_answer".data) :
    handler req oracle = ⟨400, { error := some "invalid action".data }, []⟩ := by
  unfold handler
  simp [hm, h1, h2]

/-- C10 witness: a POST request with an unknown action. -/
theorem invalid_action_400_witness :
    handler ⟨"POST".data, some { action := some "noop".data }⟩ (fun _ => .err []) =
      ⟨400, { error := some "invalid action".data }, []⟩ :=
  invalid_action_400 ⟨"POST".data, some { action := some "noop".data }⟩ (fun _ => .err [])
    rfl (by decide) (by decide)
